import Mathlib

/-!
Verification of the peer-review survey application (`src/app.py`) against its
natural-language specification.

The application is a Streamlit app backed by a CSV file store.  We give a
shallow embedding of its data model and operations:

* strings are Lean `String`s, manipulated through their `List Char` data where
  kernel computation matters;
* the backing CSV file is a `FileState`: `none` when the file does not exist,
  `some store` when it exists with a header and a list of rows;
* pandas DataFrame operations used by the code (filtering, concatenation,
  groupby/mean, sorting, CSV serialization) are modelled as the corresponding
  list operations, with rational numbers standing in for floats;
* UI widgets (sliders, text inputs, selectboxes, buttons) become explicit
  function arguments, and `st.session_state` becomes an explicit
  `Option String` threaded through `get_user_token`.
-/

namespace SurveyApp

/-- The six fixed rating categories (`CATEGORIES` in `app.py`). -/
def CATEGORIES : List String :=
  ["Behavior", "Communication", "Technical Knowledge", "Team Contribution",
   "Initiative", "Leadership (Optional)"]

/-- The admin username constant (`ADMIN_USERNAME` in `app.py`). -/
def ADMIN_USERNAME : String := "admin"

/-- The stored bcrypt hash of the admin password (`HASHED_PASSWORD` in `app.py`). -/
def HASHED_PASSWORD : String :=
  "$2b$12$tvqtcH5bbW7wJ0wc3LqwqeNQYDOsh0dliccsdvz2lekFGOMPf3lwe"

/-- One review record, as built by `show_survey_form` in `app.py`
(lines 105-113): a fresh id, an ISO timestamp, the reviewed employee's id and
name, the session token, the six category ratings (in `CATEGORIES` order) and
the stripped comment. -/
structure ReviewRecord where
  id : String
  timestamp : String
  employee_id : Nat
  employee_name : String
  user_token : String
  ratings : List Nat
  comment : String
deriving DecidableEq

/-- The backing CSV file contents: a header row (list of column names) and the
data rows, each a `ReviewRecord`. -/
structure CsvStore where
  header : List String
  rows : List ReviewRecord
deriving DecidableEq

/-- The state of the review file on disk: `none` when `reviews.csv` does not
exist, `some s` when it exists with contents `s`. -/
def FileState : Type := Option CsvStore

/-- Header written by the module-level initialization in `app.py` line 29:
the five fixed columns, then the six categories, then `comment`. -/
def review_header : List String :=
  ["id", "timestamp", "employee_id", "employee_name", "user_token"]
    ++ CATEGORIES ++ ["comment"]

/-- Column order produced when a review dict is turned into a DataFrame with no
pre-existing columns (dict insertion order in `show_survey_form`):
`comment` comes before the category columns. -/
def entry_header : List String :=
  ["id", "timestamp", "employee_id", "employee_name", "user_token", "comment"]
    ++ CATEGORIES

/-- Module-level initialization (`app.py` lines 28-29): if the review file does
not exist, create it with the header only; otherwise leave it untouched. -/
def init_review_file : FileState → FileState
  | none => some ⟨review_header, []⟩
  | some s => some s

/-- The `load_reviews` utility (`app.py` lines 38-41): an absent file yields an
empty DataFrame (no rows); otherwise the file's rows are returned. -/
def load_reviews : FileState → List ReviewRecord
  | none => []
  | some s => s.rows

/-- The `save_review` utility (`app.py` lines 43-46): load the whole store,
concatenate the new entry as one extra row, and rewrite the whole file.  The
header is the existing file's header (pandas `concat` aligns on the existing
columns); if the file was absent the columns come from the entry dict. -/
def save_review (entry : ReviewRecord) (fs : FileState) : FileState :=
  some ⟨(match fs with | some s => s.header | none => entry_header),
        load_reviews fs ++ [entry]⟩

/-- Python's `str.strip()` on the comment: drop leading and trailing
whitespace characters. -/
def py_strip (s : String) : String :=
  String.mk (((s.data.dropWhile Char.isWhitespace).reverse.dropWhile
      Char.isWhitespace).reverse)

/-- The token alphabet used by `generate_captcha`
(`string.ascii_uppercase + string.digits`). -/
def tokenAlphabet : List Char := "ABCDEFGHIJKLMNOPQRSTUVWXYZ0123456789".data

/-- The `generate_captcha` utility (`app.py` lines 48-49):
`random.choices(string.ascii_uppercase + string.digits, k=6)` joined into a
string.  The six independent uniform draws of the random generator are
modelled by the oracle `choices : Nat → Nat`; draw `i` picks alphabet index
`choices i % 36`. -/
def generate_captcha (choices : Nat → Nat) : String :=
  String.mk ((List.range 6).map (fun i => tokenAlphabet.getD (choices i % 36) 'A'))

/-- The `get_user_token` utility (`app.py` lines 51-54): the session state
(modelled as `Option String`) is consulted; on a fresh session a captcha token
is generated and bound, otherwise the bound token is returned.  Returns the
token together with the updated session state. -/
def get_user_token (choices : Nat → Nat) : Option String → String × Option String
  | some t => (t, some t)
  | none => (generate_captcha choices, some (generate_captcha choices))

/-- The throttle count (spec §4.3 `count_for_token`): the number of rows of
the loaded store whose `user_token` column equals the session token, exactly
as computed by `all_reviews[all_reviews["user_token"] == user_token]` in
`show_survey_form` (`app.py` line 85). -/
def count_for_token (token : String) (all_records : List ReviewRecord) : Nat :=
  (all_records.filter (fun r => r.user_token == token)).length

/-- The throttle predicate (spec §4.3 `is_allowed`): a submission is permitted
when the token's record count is strictly below the cap.  `show_survey_form`
(`app.py` lines 87-89) stops the flow when `user_reviews.shape[0] >= 10`. -/
def is_allowed (token : String) (all_records : List ReviewRecord) (cap : Nat) : Bool :=
  count_for_token token all_records < cap

/-- An employee of the roster, as used after `load_employees`
(`Employee ID`, `Employee Name`). -/
structure Employee where
  employee_id : Nat
  employee_name : String
deriving DecidableEq

/-- The `display` column built by `load_employees` (`app.py` line 35):
the id as a string, a dash, and the name. -/
def display (e : Employee) : String :=
  String.mk ((Nat.repr e.employee_id).data ++ " - ".data ++ e.employee_name.data)

/-- Construction of the review dict in `show_survey_form`
(`app.py` lines 105-113): the submitted employee id and name, the session
token, the six ratings and the stripped comment. -/
def mkReview (rid ts : String) (emp : Employee) (token : String)
    (ratings : List Nat) (comment : String) : ReviewRecord :=
  { id := rid, timestamp := ts, employee_id := emp.employee_id,
    employee_name := emp.employee_name, user_token := token,
    ratings := ratings, comment := py_strip comment }

/-- One submission cycle of `show_survey_form` (`app.py` lines 84-114), after
an employee has been selected and ratings entered: load the store; if the
session token already has 10 or more rows, stop with a visible rejection and
write nothing (result flag `false`); otherwise append the constructed review
(result flag `true`). -/
def surveyCycle (token : String) (fs : FileState) (emp : Employee)
    (ratings : List Nat) (comment rid ts : String) : FileState × Bool :=
  let all_reviews := load_reviews fs
  if 10 ≤ count_for_token token all_reviews then (fs, false)
  else (save_review (mkReview rid ts emp token ratings comment) fs, true)

/-- The lowercase ASCII letters, in order. -/
def lowercaseAlphabet : List Char := "abcdefghijklmnopqrstuvwxyz".data

/-- The uppercase ASCII letters, in order. -/
def uppercaseAlphabet : List Char := "ABCDEFGHIJKLMNOPQRSTUVWXYZ".data

/-- Python's `str.lower()` on one character, for the ASCII range the roster and
queries use: an uppercase letter is replaced by the lowercase letter at the
same alphabet position, everything else is unchanged (`List.indexOf` returns
the list length, hence the default, when the character is not uppercase). -/
def pyLowerChar (c : Char) : Char :=
  lowercaseAlphabet.getD (uppercaseAlphabet.indexOf c) c

/-- Python's `str.lower()` on a whole string, as character data. -/
def pyLower (s : List Char) : List Char := s.map pyLowerChar

/-- One step of the regular-expression engine behind pandas
`Series.str.contains` (which uses `re.search` with `regex=True` by default):
a pattern character `.` matches any character except a newline, and any other
pattern character matches itself literally.  This models the fragment of
Python regular expressions actually exercised here: patterns made of literal
characters and the `.` metacharacter. -/
def charMatches (p c : Char) : Bool :=
  if p == '.' then c != '\n' else p == c

/-- Whether the pattern matches a prefix of the text, character by character. -/
def patMatchesAt : List Char → List Char → Bool
  | [], _ => true
  | _ :: _, [] => false
  | p :: ps, c :: cs => charMatches p c && patMatchesAt ps cs

/-- `re.search`: the pattern matches at some position of the text. -/
def regexSearch (p : List Char) : List Char → Bool
  | [] => patMatchesAt p []
  | c :: cs => patMatchesAt p (c :: cs) || regexSearch p cs

/-- The metacharacters of Python regular expressions.  A query containing none
of them is matched purely literally by `re.search`. -/
def regexMetachars : List Char :=
  ['.', '^', '$', '*', '+', '?', '\x7b', '\x7d', '[', ']', '(', ')', '|', '\\']

/-- Plain substring containment of `needle` in `hay` (used to state the
spec's reading of the search as a substring match). -/
def listContains (hay needle : List Char) : Bool :=
  match hay with
  | [] => needle.isPrefixOf []
  | c :: cs => needle.isPrefixOf (c :: cs) || listContains cs needle

/-- The filtering step of `employee_search_selectbox` (`app.py` lines 58-68):
an empty query leaves the roster unfiltered; otherwise a row is kept when the
lowered query matches the lowered name (`str.contains`, regex semantics) or
the query matches the id rendered as a string. -/
def employee_search_filter (query : String) (employees : List Employee) :
    List Employee :=
  if query.data.isEmpty then employees
  else employees.filter (fun e =>
    regexSearch (pyLower query.data) (pyLower e.employee_name.data)
      || regexSearch query.data (Nat.repr e.employee_id).data)

/-- What the spec says the filter is (§4.4 SelectEmployee): keep the employees
whose name contains the query case-insensitively, or whose id's string form
contains the query as a substring. -/
def spec_search_filter (query : String) (employees : List Employee) :
    List Employee :=
  if query.data.isEmpty then employees
  else employees.filter (fun e =>
    listContains (pyLower e.employee_name.data) (pyLower query.data)
      || listContains (Nat.repr e.employee_id).data query.data)

/-- The whole `employee_search_selectbox` (`app.py` lines 57-74): filter by the
query; if the query was non-empty and the filtered set is empty, warn and
return `None`; otherwise the user picks entry `pick` of the filtered display
list and the first row with that display value is returned (`.iloc[0]`). -/
def employee_search_selectbox (query : String) (employees : List Employee)
    (pick : Nat) : Option Employee :=
  let filtered := employee_search_filter query employees
  if !query.data.isEmpty && filtered.isEmpty then none
  else
    match filtered.get? pick with
    | none => none
    | some sel => filtered.find? (fun e => display e == display sel)

/-- The option list offered by the selectbox: the display column of the
filtered roster. -/
def search_options (query : String) (employees : List Employee) : List String :=
  (employee_search_filter query employees).map display

/-- Modelled from the spec (§4.5): `bcrypt.checkpw(password, HASHED_PASSWORD)`
is an external library call; per the spec it verifies the candidate password
against the stored salted hash, succeeding exactly when the candidate equals
the (unknown) admin password the hash was derived from.  `stored_password` is
that preimage of `HASHED_PASSWORD`. -/
def checkpw (stored_password password : String) : Bool :=
  password == stored_password

/-- The admin login check in `show_admin_portal` (`app.py` lines 156-157):
`username == ADMIN_USERNAME and bcrypt.checkpw(password, HASHED_PASSWORD)`. -/
def authenticate (stored_password username password : String) : Bool :=
  username == ADMIN_USERNAME && checkpw stored_password password

/-- Lexicographic comparison of character data by code point, the order Python
uses to compare strings (and hence the order of pandas `groupby` keys). -/
def lexLe : List Char → List Char → Bool
  | [], _ => true
  | _ :: _, [] => false
  | x :: xs, y :: ys => if x = y then lexLe xs ys else decide (x < y)

/-- The groupby key order on employee names. -/
def nameLe (a b : String) : Prop := lexLe a.data b.data = true

instance : DecidableRel nameLe := fun a b => by unfold nameLe; infer_instance

/-- Mean of rating category `j` over a group of records
(`df.groupby("employee_name")[CATEGORIES].mean()` in `app.py` line 180),
with rationals standing in for pandas floats. -/
def categoryMean (g : List ReviewRecord) (j : Nat) : ℚ :=
  (g.map (fun r => ((r.ratings.getD j 0 : Nat) : ℚ))).sum / (g.length : ℚ)

/-- One row of the admin summary-statistics table. -/
structure StatRow where
  employee : String
  means : List ℚ
  total : ℚ

/-- The summary row of one employee (`app.py` lines 180-181): the six
per-category means and `Total Score`, the unweighted mean of those six means
(`stats[CATEGORIES].mean(axis=1)`). -/
def statRow (records : List ReviewRecord) (n : String) : StatRow :=
  let g := records.filter (fun r => r.employee_name == n)
  let means := (List.range 6).map (fun j => categoryMean g j)
  ⟨n, means, means.sum / 6⟩

/-- The admin aggregation (`app.py` lines 180-182): group the records by
employee name (pandas groupby lists the group keys deduplicated and sorted
ascending), compute each group's per-category means and total score, then sort
the rows by `Total Score` descending (`sort_values(..., ascending=False)`).
The pandas sort's default kind (numpy quicksort/introsort) leaves the order of
tied rows unspecified, so the model instantiates it with the structural
`List.insertionSort` and only tie-order-independent properties (descending
totals, row contents, the set of rows) are asserted for arbitrary inputs;
tie-order-sensitive statements are confined to concrete two-row frames, where
numpy's introsort falls back to an insertion sort and the program's observed
output coincides with this model's. -/
def aggregate (records : List ReviewRecord) : List StatRow :=
  let names :=
    List.insertionSort nameLe ((records.map (fun r => r.employee_name)).dedup)
  List.insertionSort (fun a b => b.total ≤ a.total) (names.map (statRow records))

/-- Whether a character forces CSV quoting (delimiter, quote character or a
line-break character), per the minimal quoting rule used by
`DataFrame.to_csv` (csv.QUOTE_MINIMAL). -/
def csvSpecial (c : Char) : Bool :=
  c == ',' || c == '"' || c == '\n' || c == '\r'

/-- Whether a field must be quoted when serialized. -/
def needsQuoting (f : List Char) : Bool := f.any csvSpecial

/-- Double every quote character inside a quoted field body. -/
def escQuotes : List Char → List Char
  | [] => []
  | c :: cs => if c = '"' then '"' :: '"' :: escQuotes cs else c :: escQuotes cs

/-- Serialize one CSV field with minimal quoting. -/
def escapeField (f : List Char) : List Char :=
  if needsQuoting f then '"' :: (escQuotes f ++ ['"']) else f

/-- Serialize one CSV row: fields joined by commas. -/
def renderRow : List (List Char) → List Char
  | [] => []
  | [f] => escapeField f
  | f :: fs => escapeField f ++ ',' :: renderRow fs

/-- Serialize a sequence of CSV rows, each terminated by a newline, exactly the
shape of the `df.to_csv(index=False)` payload. -/
def renderCsv : List (List (List Char)) → List Char
  | [] => []
  | r :: rs => renderRow r ++ '\n' :: renderCsv rs

/-- State of the CSV reader: at the start of a field, inside an unquoted
field, inside a quoted field, or just after a quote character inside a quoted
field. -/
inductive CsvState where
  | fieldStart
  | unquoted
  | quoted
  | quotedQuote
deriving DecidableEq

/-- The CSV reader, one character at a time: `field` is the field being read,
`row` the fields of the row being read, `acc` the completed rows. -/
def csvRun : CsvState → List Char → List (List Char) → List (List (List Char)) →
    List Char → List (List (List Char))
  | st, field, row, acc, [] =>
      if st = CsvState.fieldStart ∧ field = [] ∧ row = [] then acc
      else acc ++ [row ++ [field]]
  | CsvState.fieldStart, field, row, acc, c :: cs =>
      if c = '"' then csvRun CsvState.quoted field row acc cs
      else if c = ',' then csvRun CsvState.fieldStart [] (row ++ [field]) acc cs
      else if c = '\n' then
        csvRun CsvState.fieldStart [] [] (acc ++ [row ++ [field]]) cs
      else csvRun CsvState.unquoted (field ++ [c]) row acc cs
  | CsvState.unquoted, field, row, acc, c :: cs =>
      if c = ',' then csvRun CsvState.fieldStart [] (row ++ [field]) acc cs
      else if c = '\n' then
        csvRun CsvState.fieldStart [] [] (acc ++ [row ++ [field]]) cs
      else csvRun CsvState.unquoted (field ++ [c]) row acc cs
  | CsvState.quoted, field, row, acc, c :: cs =>
      if c = '"' then csvRun CsvState.quotedQuote field row acc cs
      else csvRun CsvState.quoted (field ++ [c]) row acc cs
  | CsvState.quotedQuote, field, row, acc, c :: cs =>
      if c = '"' then csvRun CsvState.quoted (field ++ ['"']) row acc cs
      else if c = ',' then csvRun CsvState.fieldStart [] (row ++ [field]) acc cs
      else if c = '\n' then
        csvRun CsvState.fieldStart [] [] (acc ++ [row ++ [field]]) cs
      else csvRun CsvState.unquoted (field ++ [c]) row acc cs

/-- Parse a CSV payload into its rows of fields. -/
def csvParse (cs : List Char) : List (List (List Char)) :=
  csvRun CsvState.fieldStart [] [] [] cs

/-- Re-serialization of a stored ISO-8601 timestamp after
`pd.to_datetime` (`app.py` line 165): pandas renders a `Timestamp` with a
space between date and time where `datetime.isoformat()` wrote `T` (and the
same zero-padded digits otherwise), so on the timestamps this program stores
the reparse-and-print round trip replaces the `T` separator by a space. -/
def pdTimestampCsvRepr (ts : List Char) : List Char :=
  ts.map (fun c => if c = 'T' then ' ' else c)

/-- The derived `timestamp_formatted` column (`app.py` line 166):
`strftime("%Y-%m-%d %H:%M")`, i.e. the first 16 characters of the
space-separated timestamp rendering. -/
def timestamp_formatted (ts : List Char) : List Char :=
  (pdTimestampCsvRepr ts).take 16

/-- The field values of one record as stored on disk in `reviews.csv`
(header order of `review_header`): id, ISO timestamp, employee id, employee
name, token, the six ratings, comment. -/
def stored_fields (r : ReviewRecord) : List (List Char) :=
  [r.id.data, r.timestamp.data, (Nat.repr r.employee_id).data,
   r.employee_name.data, r.user_token.data]
    ++ r.ratings.map (fun n => (Nat.repr n).data) ++ [r.comment.data]

/-- The stored field values as they come out of the admin portal's DataFrame:
identical except that the timestamp column has been re-serialized by
`pd.to_datetime` (space instead of `T`). -/
def stored_fields_pd (r : ReviewRecord) : List (List Char) :=
  [r.id.data, pdTimestampCsvRepr r.timestamp.data, (Nat.repr r.employee_id).data,
   r.employee_name.data, r.user_token.data]
    ++ r.ratings.map (fun n => (Nat.repr n).data) ++ [r.comment.data]

/-- The field values of one record in the exported CSV (`app.py` line 193):
the stored columns (timestamp re-serialized) followed by the derived
`timestamp_formatted` column appended at line 166. -/
def export_fields (r : ReviewRecord) : List (List Char) :=
  stored_fields_pd r ++ [timestamp_formatted r.timestamp.data]

/-- The header row of the exported CSV: the stored columns plus the derived
`timestamp_formatted` column. -/
def export_header : List (List Char) :=
  (review_header ++ ["timestamp_formatted"]).map String.data

/-- The export payload (`app.py` line 193): `df.to_csv(index=False)` of the
admin DataFrame, i.e. the header row followed by one row per record. -/
def export_csv (records : List ReviewRecord) : List Char :=
  renderCsv (export_header :: records.map export_fields)

/-- Filename passed to `st.download_button` (`app.py` line 194). -/
def export_filename : String := "peer_reviews.csv"

/-- Media type passed to `st.download_button` (`app.py` line 194). -/
def export_mime : String := "text/csv"

/-- Sample record: a review of employee Ann with all ratings 3. -/
def rAnn : ReviewRecord :=
  ⟨"id-a", "2026-01-01T10:00:00", 1, "Ann", "TOKAAA", [3, 3, 3, 3, 3, 3], "ok"⟩

/-- Sample record: a review of employee Zed with all ratings 3. -/
def rZed : ReviewRecord :=
  ⟨"id-z", "2026-01-01T09:00:00", 2, "Zed", "TOKBBB", [3, 3, 3, 3, 3, 3], "ok"⟩

/-- Sample record: a review of employee Zoe with ratings averaging 4.0. -/
def rZoe : ReviewRecord :=
  ⟨"id-1", "2026-01-01T08:00:00", 3, "Zoe", "TOKCCC", [5, 4, 3, 4, 5, 3], "solid"⟩

/-- Sample record: a review of employee Abe with ratings averaging 3.0. -/
def rAbe : ReviewRecord :=
  ⟨"id-2", "2026-01-01T07:00:00", 4, "Abe", "TOKDDD", [3, 3, 3, 3, 3, 3], "fine"⟩

/-- Sample record: the spec §8 concrete scenario (employee Ana, id 7), with a
microsecond-precision ISO timestamp as written by `datetime.now().isoformat()`. -/
def rAna : ReviewRecord :=
  ⟨"rid-1", "2026-01-02T03:04:05.000001", 7, "Ana", "TOK111",
   [5, 4, 3, 4, 5, 3], "Great teammate"⟩

/-- Sample roster entry. -/
def eBob : Employee := ⟨1, "Bob"⟩

lemma not_special_of_needsQuoting_eq_false {f : List Char}
    (h : needsQuoting f = false) :
    ∀ c ∈ f, c ≠ ',' ∧ c ≠ '"' ∧ c ≠ '\n' := by
  intro c hc
  have hs := List.any_eq_false.mp h c hc
  simp only [csvSpecial, Bool.or_eq_true, beq_iff_eq] at hs
  push_neg at hs
  exact ⟨hs.1.1.1, hs.1.1.2, hs.1.2⟩

lemma csvRun_unquoted_append (cs : List Char)
    (h : ∀ c ∈ cs, c ≠ ',' ∧ c ≠ '\n') (field : List Char)
    (row : List (List Char)) (acc : List (List (List Char))) (rest : List Char) :
    csvRun CsvState.unquoted field row acc (cs ++ rest)
      = csvRun CsvState.unquoted (field ++ cs) row acc rest := by
  induction cs generalizing field with
  | nil => simp
  | cons c cs ih =>
    obtain ⟨h1, h2⟩ := h c (by simp)
    rw [List.cons_append, csvRun, if_neg h1, if_neg h2,
      ih (fun x hx => h x (by simp [hx]))]
    simp

lemma csvRun_quoted_append (cs : List Char) (field : List Char)
    (row : List (List Char)) (acc : List (List (List Char))) (rest : List Char) :
    csvRun CsvState.quoted field row acc (escQuotes cs ++ rest)
      = csvRun CsvState.quoted (field ++ cs) row acc rest := by
  induction cs generalizing field with
  | nil => simp [escQuotes]
  | cons c cs ih =>
    by_cases hc : c = '"'
    · subst hc
      rw [escQuotes, if_pos rfl, List.cons_append, List.cons_append, csvRun,
        if_pos rfl, csvRun, if_pos rfl, ih]
      simp
    · rw [escQuotes, if_neg hc, List.cons_append, csvRun, if_neg hc, ih]
      simp

lemma consume_field_comma (f : List Char) (row : List (List Char))
    (acc : List (List (List Char))) (rest : List Char) :
    csvRun CsvState.fieldStart [] row acc (escapeField f ++ ',' :: rest)
      = csvRun CsvState.fieldStart [] (row ++ [f]) acc rest := by
  by_cases hq : needsQuoting f
  · rw [escapeField, if_pos hq, List.cons_append, List.append_assoc,
      List.singleton_append, csvRun, if_pos rfl,
      csvRun_quoted_append f [] row acc ('"' :: ',' :: rest)]
    simp [csvRun]
  · rw [escapeField, if_neg hq]
    match f with
    | [] => simp [csvRun]
    | c :: cs =>
      obtain ⟨h1, h2, h3⟩ :=
        not_special_of_needsQuoting_eq_false (Bool.not_eq_true _ ▸ hq) c (by simp)
      rw [List.cons_append, csvRun, if_neg h2, if_neg h1, if_neg h3,
        List.nil_append,
        csvRun_unquoted_append cs
          (fun x hx =>
            let hs := not_special_of_needsQuoting_eq_false
              (Bool.not_eq_true _ ▸ hq) x (by simp [hx])
            ⟨hs.1, hs.2.2⟩)
          [c] row acc (',' :: rest)]
      simp [csvRun]

lemma consume_field_newline (f : List Char) (row : List (List Char))
    (acc : List (List (List Char))) (rest : List Char) :
    csvRun CsvState.fieldStart [] row acc (escapeField f ++ '\n' :: rest)
      = csvRun CsvState.fieldStart [] [] (acc ++ [row ++ [f]]) rest := by
  by_cases hq : needsQuoting f
  · rw [escapeField, if_pos hq, List.cons_append, List.append_assoc,
      List.singleton_append, csvRun, if_pos rfl,
      csvRun_quoted_append f [] row acc ('"' :: '\n' :: rest)]
    simp [csvRun]
  · rw [escapeField, if_neg hq]
    match f with
    | [] => simp [csvRun]
    | c :: cs =>
      obtain ⟨h1, h2, h3⟩ :=
        not_special_of_needsQuoting_eq_false (Bool.not_eq_true _ ▸ hq) c (by simp)
      rw [List.cons_append, csvRun, if_neg h2, if_neg h1, if_neg h3,
        List.nil_append,
        csvRun_unquoted_append cs
          (fun x hx =>
            let hs := not_special_of_needsQuoting_eq_false
              (Bool.not_eq_true _ ▸ hq) x (by simp [hx])
            ⟨hs.1, hs.2.2⟩)
          [c] row acc ('\n' :: rest)]
      simp [csvRun]

lemma consume_row (fs : List (List Char)) (hfs : fs ≠ [])
    (row : List (List Char)) (acc : List (List (List Char))) (rest : List Char) :
    csvRun CsvState.fieldStart [] row acc (renderRow fs ++ '\n' :: rest)
      = csvRun CsvState.fieldStart [] [] (acc ++ [row ++ fs]) rest := by
  induction fs generalizing row with
  | nil => exact absurd rfl hfs
  | cons f fs ih =>
    cases fs with
    | nil => rw [renderRow, consume_field_newline]
    | cons g gs =>
      have ih' := ih (List.cons_ne_nil g gs)
      rw [renderRow, List.append_assoc, List.cons_append,
        consume_field_comma f row acc (renderRow (g :: gs) ++ '\n' :: rest),
        ih', List.append_assoc, List.singleton_append]
      exact List.cons_ne_nil g gs

lemma csvRun_renderCsv (rows : List (List (List Char)))
    (h : ∀ r ∈ rows, r ≠ []) (acc : List (List (List Char))) :
    csvRun CsvState.fieldStart [] [] acc (renderCsv rows) = acc ++ rows := by
  induction rows generalizing acc with
  | nil => simp [renderCsv, csvRun]
  | cons r rs ih =>
    rw [renderCsv, consume_row r (h r (by simp)) [] acc (renderCsv rs),
      ih (fun x hx => h x (by simp [hx])), List.nil_append, List.append_assoc,
      List.singleton_append]

/-- Round trip of the CSV layer: parsing the serialization of any list of rows
(each with at least one field) gives back exactly those rows. -/
lemma csvParse_renderCsv (rows : List (List (List Char)))
    (h : ∀ r ∈ rows, r ≠ []) : csvParse (renderCsv rows) = rows := by
  rw [csvParse, csvRun_renderCsv rows h, List.nil_append]

lemma getD_mem_of_default_mem {l : List Char} {d : Char} (hd : d ∈ l) (n : Nat) :
    l.getD n d ∈ l := by
  by_cases h : n < l.length
  · rw [List.getD_eq_getElem l d h]
    exact List.getElem_mem h
  · rw [List.getD_eq_default l d (Nat.le_of_not_lt h)]
    exact hd

/-- C1: a submission is permitted exactly when the store holds strictly fewer
than 10 records with the session token; with 10 or more, the cycle ends
blocked (flag `false`) and the store is left untouched. -/
theorem throttle_permits_iff_count_lt_cap (token : String) (fs : FileState)
    (emp : Employee) (ratings : List Nat) (comment rid ts : String) :
    ((surveyCycle token fs emp ratings comment rid ts).2 = true
        ↔ count_for_token token (load_reviews fs) < 10)
    ∧ (surveyCycle token fs emp ratings comment rid ts).2
        = is_allowed token (load_reviews fs) 10
    ∧ (10 ≤ count_for_token token (load_reviews fs) →
        (surveyCycle token fs emp ratings comment rid ts).1 = fs) := by
  by_cases h : 10 ≤ count_for_token token (load_reviews fs)
  · simp [surveyCycle, is_allowed, h, Nat.not_lt.mpr h]
  · simp [surveyCycle, is_allowed, h, Nat.lt_of_not_le h]

/-- Witness for C1: with 10 stored records carrying token `TOKAAA`, the cycle
writes nothing. -/
theorem throttle_permits_iff_count_lt_cap_witness :
    (surveyCycle "TOKAAA" (some ⟨review_header, List.replicate 10 rAnn⟩) eBob
        [3, 3, 3, 3, 3, 3] "c" "i" "t").1
      = some ⟨review_header, List.replicate 10 rAnn⟩ :=
  (throttle_permits_iff_count_lt_cap "TOKAAA"
      (some ⟨review_header, List.replicate 10 rAnn⟩) eBob
      [3, 3, 3, 3, 3, 3] "c" "i" "t").2.2 (by decide)

/-- C2: appending a record rewrites the store to exactly the prior rows, in
their prior order, followed by the new record; in particular the prior rows
are a prefix of the new rows. -/
theorem append_preserves_prior_rows (entry : ReviewRecord) (fs : FileState) :
    load_reviews (save_review entry fs) = load_reviews fs ++ [entry]
    ∧ List.IsPrefix (load_reviews fs) (load_reviews (save_review entry fs)) := by
  exact ⟨rfl, [entry], rfl⟩

/-- C3: appending the review constructed from a valid rating set, a selected
employee and a comment yields a store containing a record whose employee id,
employee name, ratings and stripped comment are exactly the submitted
values. -/
theorem submitted_record_found_with_fields (emp : Employee) (ratings : List Nat)
    (comment token rid ts : String) (fs : FileState)
    (hlen : ratings.length = 6) (hval : ∀ x ∈ ratings, 1 ≤ x ∧ x ≤ 5) :
    mkReview rid ts emp token ratings comment
        ∈ load_reviews (save_review (mkReview rid ts emp token ratings comment) fs)
    ∧ (mkReview rid ts emp token ratings comment).employee_id = emp.employee_id
    ∧ (mkReview rid ts emp token ratings comment).employee_name = emp.employee_name
    ∧ (mkReview rid ts emp token ratings comment).ratings = ratings
    ∧ (mkReview rid ts emp token ratings comment).comment = py_strip comment := by
  refine ⟨?_, rfl, rfl, rfl, rfl⟩
  exact List.mem_append_right _ (List.mem_singleton.mpr rfl)

/-- Witness for C3: the spec §8 scenario (employee Ana, id 7, ratings
5,4,3,4,5,3, comment with surrounding blanks stripped). -/
theorem submitted_record_found_with_fields_witness :
    mkReview "rid-1" "2026-01-02T03:04:05.000001" ⟨7, "Ana"⟩ "TOK111"
        [5, 4, 3, 4, 5, 3] " Great teammate "
        ∈ load_reviews (save_review
            (mkReview "rid-1" "2026-01-02T03:04:05.000001" ⟨7, "Ana"⟩ "TOK111"
              [5, 4, 3, 4, 5, 3] " Great teammate ")
            (some ⟨review_header, [rZoe]⟩))
    ∧ (mkReview "rid-1" "2026-01-02T03:04:05.000001" ⟨7, "Ana"⟩ "TOK111"
        [5, 4, 3, 4, 5, 3] " Great teammate ").employee_id = (⟨7, "Ana"⟩ : Employee).employee_id
    ∧ (mkReview "rid-1" "2026-01-02T03:04:05.000001" ⟨7, "Ana"⟩ "TOK111"
        [5, 4, 3, 4, 5, 3] " Great teammate ").employee_name = (⟨7, "Ana"⟩ : Employee).employee_name
    ∧ (mkReview "rid-1" "2026-01-02T03:04:05.000001" ⟨7, "Ana"⟩ "TOK111"
        [5, 4, 3, 4, 5, 3] " Great teammate ").ratings = [5, 4, 3, 4, 5, 3]
    ∧ (mkReview "rid-1" "2026-01-02T03:04:05.000001" ⟨7, "Ana"⟩ "TOK111"
        [5, 4, 3, 4, 5, 3] " Great teammate ").comment = py_strip " Great teammate " :=
  submitted_record_found_with_fields ⟨7, "Ana"⟩ [5, 4, 3, 4, 5, 3]
    " Great teammate " "TOK111" "rid-1" "2026-01-02T03:04:05.000001"
    (some ⟨review_header, [rZoe]⟩) (by decide) (by decide)

/-- C4: the first `get_user_token` call of a session generates and binds a
6-character token over the uppercase-plus-digits alphabet, and any later call
in the same session returns the identical token, whatever the random draws of
the later call would have been. -/
theorem token_issuance_idempotent (choices choices2 : Nat → Nat)
    (st : Option String) :
    (get_user_token choices2 (get_user_token choices st).2).1
        = (get_user_token choices st).1
    ∧ (get_user_token choices none).1 = generate_captcha choices
    ∧ (get_user_token choices none).2 = some (generate_captcha choices)
    ∧ (generate_captcha choices).length = 6
    ∧ ∀ c ∈ (generate_captcha choices).data, c ∈ tokenAlphabet := by
  refine ⟨?_, rfl, rfl, ?_, ?_⟩
  · cases st <;> rfl
  · simp [generate_captcha, String.length]
  · intro c hc
    simp only [generate_captcha, List.mem_map, List.mem_range] at hc
    obtain ⟨i, _, rfl⟩ := hc
    exact getD_mem_of_default_mem (by decide) (choices i % 36)

/-- C7: authentication succeeds exactly when the username equals the stored
admin username and the password verifies against the stored hash; in
particular the empty password is rejected (the hash's preimage is a nonempty
password). -/
theorem authenticate_iff_exact_credentials (stored_password : String)
    (hpw : stored_password ≠ "") (username password : String) :
    (authenticate stored_password username password = true
        ↔ username = ADMIN_USERNAME ∧ password = stored_password)
    ∧ authenticate stored_password username "" = false := by
  constructor
  · simp [authenticate, checkpw]
  · simp [authenticate, checkpw, Ne.symm hpw]

/-- Witness for C7: with stored admin password `S3CRET`, the exact credentials
authenticate and the empty password is rejected. -/
theorem authenticate_iff_exact_credentials_witness :
    (authenticate "S3CRET" "admin" "S3CRET" = true
        ↔ "admin" = ADMIN_USERNAME ∧ "S3CRET" = ("S3CRET" : String))
    ∧ authenticate "S3CRET" "admin" "" = false :=
  authenticate_iff_exact_credentials "S3CRET" (by decide) "admin" "S3CRET"

/-- C8: initializing an absent store creates it with the header schema only;
initializing an existing store (whatever its contents) leaves it unchanged, so
initialization is idempotent; and loading a never-initialized store yields the
empty sequence. -/
theorem init_review_file_idempotent (fs : FileState) (s : CsvStore) :
    init_review_file none = some ⟨review_header, []⟩
    ∧ init_review_file (some s) = some s
    ∧ init_review_file (init_review_file fs) = init_review_file fs
    ∧ load_reviews none = [] := by
  refine ⟨rfl, rfl, ?_, rfl⟩
  cases fs <;> rfl

/-- C10: an empty search query applies no filtering: the filtered roster is
the whole roster and the selectbox offers every employee's display entry. -/
theorem empty_query_offers_whole_roster (employees : List Employee) :
    employee_search_filter "" employees = employees
    ∧ search_options "" employees = employees.map display :=
  ⟨rfl, rfl⟩

lemma pyLowerChar_eq_dot_iff (c : Char) : pyLowerChar c = '.' ↔ c = '.' := by
  constructor
  · intro h
    by_cases hi : uppercaseAlphabet.indexOf c < lowercaseAlphabet.length
    · exfalso
      rw [pyLowerChar, List.getD_eq_getElem lowercaseAlphabet c hi] at h
      have hmem : ('.' : Char) ∈ lowercaseAlphabet := h ▸ List.getElem_mem hi
      exact absurd hmem (by decide)
    · rw [pyLowerChar, List.getD_eq_default lowercaseAlphabet c
        (Nat.le_of_not_lt hi)] at h
      exact h
  · intro h
    subst h
    decide

lemma dot_not_mem_pyLower {q : List Char} (h : '.' ∉ q) : '.' ∉ pyLower q := by
  intro hmem
  obtain ⟨c, hc, hlc⟩ := List.mem_map.mp hmem
  exact h ((pyLowerChar_eq_dot_iff c).mp hlc ▸ hc)

lemma patMatchesAt_eq_isPrefixOf (p : List Char) (hp : '.' ∉ p)
    (s : List Char) : patMatchesAt p s = p.isPrefixOf s := by
  induction p generalizing s with
  | nil => cases s <;> rfl
  | cons a ps ih =>
    cases s with
    | nil => rfl
    | cons b bs =>
      have ha : (a == '.') = false :=
        beq_eq_false_iff_ne.mpr (fun h => hp (h ▸ List.mem_cons_self a ps))
      have hp2 : '.' ∉ ps := fun h => hp (List.mem_cons_of_mem a h)
      simp [patMatchesAt, charMatches, List.isPrefixOf, ha, ih hp2]

lemma regexSearch_eq_listContains (p : List Char) (hp : '.' ∉ p)
    (s : List Char) : regexSearch p s = listContains s p := by
  induction s with
  | nil => simp [regexSearch, listContains, patMatchesAt_eq_isPrefixOf p hp]
  | cons c cs ih =>
      simp [regexSearch, listContains, patMatchesAt_eq_isPrefixOf p hp, ih]

/-- Counterexample for C9: for the query `.` and a roster holding only Bob
(id 1), the code's filter (pandas `str.contains`, regex semantics) keeps Bob,
although `.` is a substring of neither the lowered name `bob` nor the id
string `1`, so the filtered set is not the set the claim describes (which is
empty here). -/
theorem search_filter_regex_counterexample :
    employee_search_filter "." [eBob] ≠ spec_search_filter "." [eBob]
    ∧ employee_search_filter "." [eBob] = [eBob]
    ∧ spec_search_filter "." [eBob] = []
    ∧ employee_search_selectbox "." [eBob] 0 = some eBob := by decide

/-- C9 amended: the filter applies the query as a regular expression
(pandas `str.contains` default); for every query free of regex
metacharacters this coincides exactly with the claimed semantics — name
contains the query case-insensitively or the id's string form contains it —
and whenever the filtered set is empty no employee is selected. -/
theorem search_filter_literal_query (query : String) (employees : List Employee)
    (hq : ∀ c ∈ query.data, c ∉ regexMetachars) :
    employee_search_filter query employees = spec_search_filter query employees
    ∧ ∀ pick, employee_search_filter query employees = [] →
        employee_search_selectbox query employees pick = none := by
  have hdot : '.' ∉ query.data := fun h => (hq '.' h) (by decide)
  have hdot2 : '.' ∉ pyLower query.data := dot_not_mem_pyLower hdot
  constructor
  · have hfun : (fun e : Employee =>
        regexSearch (pyLower query.data) (pyLower e.employee_name.data)
          || regexSearch query.data (Nat.repr e.employee_id).data)
        = (fun e : Employee =>
        listContains (pyLower e.employee_name.data) (pyLower query.data)
          || listContains (Nat.repr e.employee_id).data query.data) := by
      funext e
      rw [regexSearch_eq_listContains _ hdot2, regexSearch_eq_listContains _ hdot]
    simp only [employee_search_filter, spec_search_filter, hfun]
  · intro pick hempty
    by_cases he : query.data.isEmpty
    · simp [employee_search_selectbox, hempty, he]
    · simp [employee_search_selectbox, hempty, he]

/-- Witness for C9 amended: the query `bo` (no metacharacters) against a
one-employee roster. -/
theorem search_filter_literal_query_witness :
    employee_search_filter "bo" [eBob] = spec_search_filter "bo" [eBob]
    ∧ ∀ pick, employee_search_filter "bo" [eBob] = [] →
        employee_search_selectbox "bo" [eBob] pick = none :=
  search_filter_literal_query "bo" [eBob] (by decide)

lemma aggregate_sorted_desc (records : List ReviewRecord) :
    List.Pairwise (fun a b : StatRow => b.total ≤ a.total) (aggregate records) := by
  haveI : IsTotal StatRow (fun a b => b.total ≤ a.total) :=
    ⟨fun a b => le_total b.total a.total⟩
  haveI : IsTrans StatRow (fun a b => b.total ≤ a.total) :=
    ⟨fun _ _ _ hab hbc => le_trans hbc hab⟩
  exact List.sorted_insertionSort _ _

lemma aggregate_row_spec (records : List ReviewRecord) :
    ∀ row ∈ aggregate records,
      row.means = (List.range 6).map
        (fun j => categoryMean
          (records.filter (fun r => r.employee_name == row.employee)) j)
      ∧ row.total = row.means.sum / 6 := by
  intro row hrow
  have hmem : row ∈ (List.insertionSort nameLe
      ((records.map (fun r => r.employee_name)).dedup)).map (statRow records) :=
    (List.perm_insertionSort (fun a b : StatRow => b.total ≤ a.total)
      _).mem_iff.mp hrow
  obtain ⟨n, _, rfl⟩ := List.mem_map.mp hmem
  exact ⟨rfl, rfl⟩

/-- Counterexample for C5: two employees tied at overall mean 3, submitted in
the record order Zed then Ann.  The code's aggregation lists Ann before Zed
(pandas `groupby` reorders the group keys alphabetically before the sort), so
ties do not keep stable input order as the claim states. -/
theorem aggregate_tie_not_input_order :
    (aggregate [rZed, rAnn]).map (fun row => row.employee) = ["Ann", "Zed"]
    ∧ (aggregate [rZed, rAnn]).map (fun row => row.total) = [3, 3]
    ∧ (aggregate [rZed, rAnn]).map (fun row => row.employee) ≠ ["Zed", "Ann"] := by
  have h2 : (aggregate [rZed, rAnn]).map (fun row => row.employee)
      = ["Ann", "Zed"] := by
    simp [aggregate, statRow, categoryMean, nameLe, lexLe, rZed, rAnn,
      List.insertionSort, List.orderedInsert, List.range_succ]
  refine ⟨h2, ?_, ?_⟩
  · simp [aggregate, statRow, categoryMean, nameLe, lexLe, rZed, rAnn,
      List.insertionSort, List.orderedInsert, List.range_succ]
    all_goals norm_num
  · rw [h2]
    decide

/-- C5 amended: aggregation computes for each employee the per-category means
and an overall mean equal to the unweighted mean of the six per-category
means, and returns one row per distinct employee sorted descending by overall
mean — an employee averaging 4.0 is ordered before one averaging 3.0.  Tie
order is not the stable input order the original claim asserted (and is
otherwise not guaranteed by the program): on the concrete two-row tie the
output is Ann before Zed although Zed's record was entered first. -/
theorem aggregate_spec (records : List ReviewRecord) :
    List.Pairwise (fun a b : StatRow => b.total ≤ a.total) (aggregate records)
    ∧ List.Forall (fun row : StatRow =>
        row.means = (List.range 6).map
          (fun j => categoryMean
            (records.filter (fun r => r.employee_name == row.employee)) j)
        ∧ row.total = row.means.sum / 6) (aggregate records)
    ∧ ((aggregate records).map (fun row => row.employee)).Perm
        ((records.map (fun r => r.employee_name)).dedup)
    ∧ (aggregate [rZoe, rAbe]).map (fun row => row.employee) = ["Zoe", "Abe"]
    ∧ (aggregate [rZoe, rAbe]).map (fun row => row.total) = [4, 3]
    ∧ (aggregate [rZed, rAnn]).map (fun row => row.employee) = ["Ann", "Zed"] := by
  refine ⟨aggregate_sorted_desc records,
    List.forall_iff_forall_mem.mpr (aggregate_row_spec records), ?_, ?_, ?_, ?_⟩
  · have h1 : ((aggregate records).map (fun row => row.employee)).Perm
        ((List.insertionSort nameLe
          ((records.map (fun r => r.employee_name)).dedup)).map
          (fun n => (statRow records n).employee)) := by
      have := (List.perm_insertionSort (fun a b : StatRow => b.total ≤ a.total)
        ((List.insertionSort nameLe
          ((records.map (fun r => r.employee_name)).dedup)).map
          (statRow records))).map (fun row : StatRow => row.employee)
      simpa [List.map_map, Function.comp] using this
    have h2 : (List.insertionSort nameLe
        ((records.map (fun r => r.employee_name)).dedup)).map
        (fun n => (statRow records n).employee)
        = List.insertionSort nameLe
          ((records.map (fun r => r.employee_name)).dedup) := by
      have hid : (fun n => (statRow records n).employee) = fun n : String => n := by
        funext n
        rfl
      rw [hid]
      simp
    refine h1.trans ?_
    rw [h2]
    exact List.perm_insertionSort nameLe _
  · simp [aggregate, statRow, categoryMean, nameLe, lexLe, rZoe, rAbe,
      List.insertionSort, List.orderedInsert, List.range_succ]
    all_goals norm_num
  · simp [aggregate, statRow, categoryMean, nameLe, lexLe, rZoe, rAbe,
      List.insertionSort, List.orderedInsert, List.range_succ]
    all_goals norm_num
  · simp [aggregate, statRow, categoryMean, nameLe, lexLe, rZed, rAnn,
      List.insertionSort, List.orderedInsert, List.range_succ]

lemma export_rows_ne_nil (records : List ReviewRecord) :
    ∀ r ∈ export_header :: records.map export_fields, r ≠ [] := by
  intro r hr
  rcases List.mem_cons.mp hr with h | h
  · subst h
    decide
  · obtain ⟨x, _, rfl⟩ := List.mem_map.mp h
    simp [export_fields, stored_fields_pd]

/-- Counterexample for C6: for a store holding one record whose stored
timestamp is `2026-01-02T03:04:05.000001`, re-parsing the exported CSV and
ignoring the derived formatted-timestamp column does not give back the stored
field values: the timestamp column was re-serialized by `pd.to_datetime` with
a space instead of the `T` separator. -/
theorem export_reparse_not_stored_fields :
    ((csvParse (export_csv [rAna])).drop 1).map List.dropLast
      ≠ [stored_fields rAna] := by
  have h := csvParse_renderCsv (export_header :: [rAna].map export_fields)
    (export_rows_ne_nil [rAna])
  rw [export_csv, h]
  decide

/-- C6 amended: re-parsing the exported CSV yields the header row plus exactly
K rows whose field values are identical to the stored rows, ignoring the
derived formatted-timestamp column and modulo the timestamp column being
re-serialized with a space separator in place of `T`; the payload is offered
as `text/csv` under the filename `peer_reviews.csv`. -/
theorem export_roundtrip (records : List ReviewRecord) :
    csvParse (export_csv records) = export_header :: records.map export_fields
    ∧ (csvParse (export_csv records)).length = records.length + 1
    ∧ ((csvParse (export_csv records)).drop 1).map List.dropLast
        = records.map stored_fields_pd
    ∧ export_filename = "peer_reviews.csv" ∧ export_mime = "text/csv" := by
  have h := csvParse_renderCsv (export_header :: records.map export_fields)
    (export_rows_ne_nil records)
  rw [export_csv, h]
  refine ⟨rfl, by simp, ?_, rfl, rfl⟩
  simp [export_fields, List.map_map, Function.comp, List.dropLast_concat]

end SurveyApp
